import Mathlib

/-!
Verification of the control-task factory `make_control_task` in
`dso/task/control/control.py` (deep-symbolic-optimization).

The Python module builds a closure-based task: given a candidate symbolic
program it composes a full action vector each environment step from an
optional anchor model, frozen symbolic sub-policies and the candidate
program, sanitizes it (NaN replacement, clipping), runs episodes with a
documented seeding policy, and turns episodic returns into a training
reward and a test-time evaluation report.

The shallow embedding below translates that module.  Floating-point
scalars are modelled by `FVal`: either NaN or a rational value (the
module's logic only branches on NaN-ness, never on rounding).  The gym
environment is a black-box collaborator modelled as a state machine over
an abstract state type, matching the `seed/reset/step` contract the
module relies on.
-/

namespace DsoControl

/-- A floating-point scalar, abstracted: NaN or an exact value. -/
inductive FVal where
  | nan : FVal
  | val : ℚ → FVal
deriving DecidableEq, Repr

/-- An observation: a vector of (non-NaN) scalars. -/
abbrev Obs := List ℚ

/-- The gym environment contract used by `run_episodes`:
`seed(int)`, `reset() → obs`, `step(action) → (obs, reward, done, info)`,
plus the action-space bounds `low`/`high`.  State `σ` is threaded
explicitly; the `info` dict is dropped because the module ignores it. -/
structure GymEnv (σ : Type) where
  seed : Nat → σ → σ
  reset : σ → σ × Obs
  step : σ → List ℚ → σ × Obs × ℚ × Bool
  low : List ℚ
  high : List ℚ

/-- `REWARD_SEED_SHIFT = int(1e6)` (control.py line 12):
reserve the first million seeds for evaluation. -/
def REWARD_SEED_SHIFT : Nat := 1000000

/-- The closed-over data of the task produced by `make_control_task`:
the environment, the anchor model (`model`, `None` unless some action
dimension is specified as `"anchor"`), the frozen symbolic sub-policies
(`symbolic_actions`, association list index ↦ program), the learned
action dimension (`action_dim`), the seeding configuration, episode
counts, the success threshold and the resolved reward scale. -/
structure ControlTask (σ : Type) where
  env : GymEnv σ
  model : Option (Obs → List FVal)
  symbolicActions : List (Nat × (Obs → FVal))
  actionDim : Option Nat
  fixSeeds : Bool
  episodeSeedShift : Nat
  nEpisodesTrain : Nat
  nEpisodesTest : Nat
  successScore : Option ℚ
  rScale : Option (ℚ × ℚ)

/-- The action vector before sanitization (control.py lines 187-199):
start from the anchor model's prediction if a model is loaded, otherwise
`np.zeros(env.action_space.shape, dtype=np.float32)`; then overwrite each
sub-policy dimension `j` with `get_action(fixed_p, obs)`; then overwrite
`action_dim` (when present) with `get_action(p, obs)`. -/
def rawAction (t : ControlTask σ) (p : Obs → FVal) (obs : Obs) : List FVal :=
  let action : List FVal :=
    match t.model with
    | some m => m obs
    | none => List.replicate t.env.low.length (FVal.val 0)
  let action := t.symbolicActions.foldl (fun a jp => a.set jp.1 (jp.2 obs)) action
  match t.actionDim with
  | some d => action.set d (p obs)
  | none => action

/-- `action[np.isnan(action)] = 0.0` (line 202), for one scalar. -/
def deNaN : FVal → ℚ
  | FVal.nan => 0
  | FVal.val q => q

/-- `np.clip(action, low, high)` (line 203), elementwise:
numpy clip is `minimum(maximum(x, low), high)`. -/
def clip3 : List ℚ → List ℚ → List ℚ → List ℚ
  | x :: xs, lo :: los, hi :: his => min (max x lo) hi :: clip3 xs los his
  | _, _, _ => []

/-- The action vector passed to `env.step` (lines 187-203): the raw
composition with NaNs replaced by 0.0 and the result clipped to the
action-space bounds. -/
def composeAction (t : ControlTask σ) (p : Obs → FVal) (obs : Obs) : List ℚ :=
  clip3 ((rawAction t p obs).map deNaN) t.env.low t.env.high

/-- The `while not done` loop of one episode (lines 184-206), with fuel
bounding the number of steps (the source loop has no bound; every claim
below is insensitive to the fuel).  Accumulates `r_episodes[i] += r` and
returns the episodic return together with the final environment state. -/
def runSteps (t : ControlTask σ) (p : Obs → FVal) :
    Nat → σ → Obs → ℚ → ℚ × σ
  | 0, s, _, acc => (acc, s)
  | fuel + 1, s, obs, acc =>
    let r0 := t.env.step s (composeAction t p obs)
    if r0.2.2.2 then (acc + r0.2.2.1, r0.1)
    else runSteps t p fuel r0.1 r0.2.1 (acc + r0.2.2.1)

/-- `env.seed(n)` when a seed call is issued, nothing otherwise. -/
def applySeed (e : GymEnv σ) (seedOpt : Option Nat) (s : σ) : σ :=
  match seedOpt with
  | some n => e.seed n s
  | none => s

/-- The body of `run_episodes` (lines 176-206), iterating episodes `i`,
`i+1`, ... while `k` episodes remain.  Per episode: during evaluation
`env.seed(i)`; during training `env.seed(i + episode_seed_shift*100 +
REWARD_SEED_SHIFT)` only when `fix_seeds`; then `env.reset()` and the
step loop.  Besides the episodic returns it records, per episode, the
seed call issued to the environment (`none` = no call), which is the
observable effect of lines 179-182. -/
def runEpisodesAux (t : ControlTask σ) (p : Obs → FVal) (evalMode : Bool)
    (fuel : Nat) : Nat → Nat → σ → List ℚ × List (Option Nat) × σ
  | _, 0, s => ([], [], s)
  | i, k + 1, s =>
    let seedOpt : Option Nat :=
      if evalMode then some i
      else if t.fixSeeds then
        some (i + t.episodeSeedShift * 100 + REWARD_SEED_SHIFT)
      else none
    let r0 := t.env.reset (applySeed t.env seedOpt s)
    let st := runSteps t p fuel r0.1 r0.2 0
    let rest := runEpisodesAux t p evalMode fuel (i + 1) k st.2
    (st.1 :: rest.1, seedOpt :: rest.2.1, rest.2.2)

/-- `run_episodes(p, n_episodes, evaluate)` (lines 171-208): runs
`n_episodes` episodes and returns the per-episode returns (first
component), the per-episode seed calls (second), and the final
environment state. -/
def runEpisodes (t : ControlTask σ) (p : Obs → FVal) (nEpisodes : Nat)
    (evalMode : Bool) (fuel : Nat) (s : σ) : List ℚ × List (Option Nat) × σ :=
  runEpisodesAux t p evalMode fuel 0 nEpisodes s

/-- `np.mean` of a list of scalars. -/
def listMean (xs : List ℚ) : ℚ := xs.sum / xs.length

/-- `reward(p)` (lines 211-223): mean episodic return over
`n_episodes_train` training episodes (`evaluate=False`), scaled by
`(r_avg - r_min) / (r_max - r_min)` when reward scaling is configured
(`r_min is not None`), returned raw otherwise. -/
def rewardFn (t : ControlTask σ) (p : Obs → FVal) (fuel : Nat) (s : σ) : ℚ :=
  let rs := (runEpisodes t p t.nEpisodesTrain false fuel s).1
  let rAvg := listMean rs
  match t.rScale with
  | some mm => (rAvg - mm.1) / (mm.2 - mm.1)
  | none => rAvg

/-- The record returned by `evaluate(p)` (lines 236-240).  The
`success_rate`/`success` fields are `Option`s: the source compares the
returns against `success_score` unconditionally, and when
`success_score` is `None` that comparison (float vs `None`) has no
defined numeric meaning, which the embedding renders as `none`. -/
structure EvalInfo where
  r_avg_test : ℚ
  success_rate : Option ℚ
  success : Option Bool
deriving DecidableEq, Repr

/-- `evaluate(p)` (lines 226-241): runs `n_episodes_test` episodes with
`evaluate=True`, then reports the unnormalized mean return, the mean of
the indicator `r_episodes >= success_score`, and
`success = (success_rate == 1.0)`. -/
def evaluateFn (t : ControlTask σ) (p : Obs → FVal) (fuel : Nat) (s : σ) :
    EvalInfo :=
  let rs := (runEpisodes t p t.nEpisodesTest true fuel s).1
  let successRate : Option ℚ :=
    match t.successScore with
    | some th => some (listMean (rs.map (fun r => if th ≤ r then (1 : ℚ) else 0)))
    | none => none
  { r_avg_test := listMean rs
    success_rate := successRate
    success := successRate.map (fun q => decide (q = 1)) }

/-! ## Task construction (`make_control_task`, lines 28-160)

The environment returned by `gym.make` is a black box; `RawEnv` records
exactly what the factory inspects: the observation-space shape tuple, the
action space, and the `seed/reset/step` behaviour. -/

/-- A gym action space as inspected by the factory: a continuous `Box`
(with `low`/`high` bound vectors, the shape being their length) or
anything else (e.g. `Discrete`), which the factory rejects. -/
inductive GymSpace where
  | box : List ℚ → List ℚ → GymSpace
  | other : GymSpace

/-- The object returned by `gym.make` (plus the Bullet wrapper, which
does not change this interface): what `make_control_task` reads off it. -/
structure RawEnv (σ : Type) where
  obsShape : List Nat
  actionSpace : GymSpace
  seed : Nat → σ → σ
  reset : σ → σ × Obs
  step : σ → List ℚ → σ × Obs × ℚ × Bool

/-- One entry of `action_spec`: `None` (the learned dimension),
`"anchor"`, or a str/list of tokens, carried here as the compiled
program's semantics (`from_str_tokens` is external). -/
inductive SpecEntry where
  | anchor : SpecEntry
  | learned : SpecEntry
  | fixed : (Obs → FVal) → SpecEntry

/-- Whether an `action_spec` entry is `None` (`spec is None`). -/
def SpecEntry.isLearned : SpecEntry → Bool
  | SpecEntry.learned => true
  | _ => false

/-- Whether an `action_spec` entry is `"anchor"`. -/
def SpecEntry.isAnchor : SpecEntry → Bool
  | SpecEntry.anchor => true
  | _ => false

/-- The `reward_scale` argument: a list (expected `[r_min, r_max]`) or a
bool (`True` = use the built-in table, `False` = no scaling). -/
inductive RewardScaleArg where
  | ofList : List ℚ → RewardScaleArg
  | ofBool : Bool → RewardScaleArg

/-- The `REWARD_SCALE` table (control.py lines 15-25): pre-computed
`[r_min, r_max]` per environment name. -/
def REWARD_SCALE : List (String × ℚ × ℚ) :=
  [ ("CustomCartPoleContinuous-v0", 0, 1000),
    ("MountainCarContinuous-v0", 0, 93.95),
    ("Pendulum-v0", -1300, -147.56),
    ("InvertedDoublePendulumBulletEnv-v0", 0, 9357.77),
    ("InvertedPendulumSwingupBulletEnv-v0", 0, 891.34),
    ("LunarLanderContinuous-v2", 0, 272.65),
    ("HopperBulletEnv-v0", 0, 2741.86),
    ("ReacherBulletEnv-v0", -5, 19.05),
    ("BipedalWalker-v2", -60, 312) ]

/-- Reward-scale resolution (lines 96-105): a list must have length 2
(assert), `True` looks the environment up in `REWARD_SCALE` and raises
`RuntimeError` when absent, `False` leaves `r_min = r_max = None`. -/
def resolveRewardScale (rewardScale : RewardScaleArg) (envName : String) :
    Except String (Option (ℚ × ℚ)) :=
  match rewardScale with
  | RewardScaleArg.ofList l =>
    if l.length = 2 then Except.ok (some (l.getD 0 0, l.getD 1 0))
    else Except.error "Reward scale should be length 2: min, max."
  | RewardScaleArg.ofBool true =>
    match REWARD_SCALE.find? (fun e => e.1 == envName) with
    | some e => Except.ok (some e.2)
    | none => Except.error (envName ++ " has no default values for reward_scale. Use reward_scale=False or specify reward_scale=[r_min, r_max].")
  | RewardScaleArg.ofBool false => Except.ok none

/-- The `for i, spec in enumerate(action_spec)` loop (lines 140-159):
collects `symbolic_actions` (index ↦ compiled program, in order) and the
last index whose spec is `None` as `action_dim`. -/
def resolveSpec (actionSpec : List SpecEntry) :
    List (Nat × (Obs → FVal)) × Option Nat :=
  actionSpec.enum.foldl
    (fun acc ie =>
      match ie.2 with
      | SpecEntry.anchor => acc
      | SpecEntry.learned => (acc.1, some ie.1)
      | SpecEntry.fixed p => (acc.1 ++ [(ie.1, p)], acc.2))
    ([], none)

/-- `make_control_task` (lines 28-160) as far as it can fail or shapes
the closure data.  Failures (Python `assert`/`RuntimeError`/`IndexError`)
become `Except.error`, in source order: reward-scale resolution (96-103),
`env.observation_space.shape[0]` (115, `IndexError` on a rank-0 shape),
then the assertions of lines 121-126.  `anchorModel` stands for whatever
`U.load_model`/`U.load_default_model` would load; it is consulted only
when some entry is `"anchor"` (lines 129-137). -/
def makeControlTask (env : RawEnv σ) (envName : String)
    (actionSpec : List SpecEntry)
    (algorithm : Option String) (anchor : Option String)
    (anchorModel : Obs → List FVal)
    (nEpisodesTrain nEpisodesTest : Nat) (successScore : Option ℚ)
    (fixSeeds : Bool) (episodeSeedShift : Nat)
    (rewardScale : RewardScaleArg) : Except String (ControlTask σ) :=
  match resolveRewardScale rewardScale envName with
  | Except.error e => Except.error e
  | Except.ok rmm =>
    match env.obsShape with
    | [] => Except.error "IndexError: tuple index out of range"
    | _ :: restShape =>
      if restShape ≠ [] then
        Except.error "Only support vector observation spaces."
      else
        match env.actionSpace with
        | GymSpace.other => Except.error "Only supports continuous action spaces."
        | GymSpace.box low high =>
          if low.length ≠ actionSpec.length then
            Except.error "Received specifications for a number of action dimensions different from the action space."
          else if ¬ (actionSpec.filter SpecEntry.isLearned).length ≤ 1 then
            Except.error "No more than 1 action_spec element can be None."
          else if ¬ (algorithm.isNone = anchor.isNone) then
            Except.error "Either none or both of (algorithm, anchor) must be None."
          else
            let model := if actionSpec.any SpecEntry.isAnchor then some anchorModel else none
            match resolveSpec actionSpec with
            | (symActs, actionDim) =>
              Except.ok
                { env := { seed := env.seed, reset := env.reset,
                           step := env.step, low := low, high := high }
                  model := model
                  symbolicActions := symActs
                  actionDim := actionDim
                  fixSeeds := fixSeeds
                  episodeSeedShift := episodeSeedShift
                  nEpisodesTrain := nEpisodesTrain
                  nEpisodesTest := nEpisodesTest
                  successScore := successScore
                  rScale := rmm }

/-- Whether construction succeeded (reached the `Task(...)` return). -/
def constructionSucceeds : Except String (ControlTask σ) → Bool
  | Except.ok _ => true
  | Except.error _ => false

/-! ## Concrete instances used to exercise the theorems -/

/-- A program that always outputs 0. -/
def pZero : Obs → FVal := fun _ => FVal.val 0

/-- A program that always outputs NaN. -/
def pNaN : Obs → FVal := fun _ => FVal.nan

/-- A one-dimensional environment with bounds [-1, 1] whose every step
yields reward `r` and terminates the episode. -/
def constRewardEnv (r : ℚ) : GymEnv Unit :=
  { seed := fun _ s => s
    reset := fun s => (s, [0])
    step := fun s _ => (s, [0], r, true)
    low := [-1]
    high := [1] }

/-- Task over `constRewardEnv 50` with reward scale (0, 100). -/
def taskScale50 : ControlTask Unit :=
  { env := constRewardEnv 50, model := none, symbolicActions := []
    actionDim := some 0, fixSeeds := false, episodeSeedShift := 0
    nEpisodesTrain := 2, nEpisodesTest := 1, successScore := none
    rScale := some (0, 100) }

/-- Task over `constRewardEnv 150` with reward scale (0, 100): its raw
mean return exceeds `r_max`. -/
def taskScale150 : ControlTask Unit :=
  { env := constRewardEnv 150, model := none, symbolicActions := []
    actionDim := some 0, fixSeeds := false, episodeSeedShift := 0
    nEpisodesTrain := 2, nEpisodesTest := 1, successScore := none
    rScale := some (0, 100) }

/-- A one-dimensional environment whose action bounds [1, 2] exclude 0
(gym `Box` bounds need not straddle zero). -/
def posBoundsEnv : GymEnv Unit :=
  { seed := fun _ s => s
    reset := fun s => (s, [0])
    step := fun s _ => (s, [0], 0, true)
    low := [1]
    high := [2] }

/-- Task over `posBoundsEnv` whose learned dimension is the candidate
program's output. -/
def taskNaNBounds : ControlTask Unit :=
  { env := posBoundsEnv, model := none, symbolicActions := []
    actionDim := some 0, fixSeeds := false, episodeSeedShift := 0
    nEpisodesTrain := 1, nEpisodesTest := 1, successScore := none
    rScale := none }

/-- An environment whose state is the last seed and whose single-step
episode reward is determined by that seed: seed 0 ↦ 10, seed 1 ↦ 20,
anything else ↦ 5. -/
def seedRewardEnv : GymEnv Nat :=
  { seed := fun n _ => n
    reset := fun s => (s, [(s : ℚ)])
    step := fun s _ => (s, [], if s = 0 then 10 else if s = 1 then 20 else 5, true)
    low := [-1]
    high := [1] }

/-- Task over `seedRewardEnv` with 3 test episodes (returns 10, 20, 5
under the evaluation seeds 0, 1, 2) and success threshold 10. -/
def taskSeeded : ControlTask Nat :=
  { env := seedRewardEnv, model := none, symbolicActions := []
    actionDim := some 0, fixSeeds := false, episodeSeedShift := 0
    nEpisodesTrain := 1, nEpisodesTest := 3, successScore := some 10
    rScale := none }

/-- Task with `fix_seeds = True` and `episode_seed_shift = 2`. -/
def taskFixSeeds : ControlTask Unit :=
  { env := constRewardEnv 0, model := none, symbolicActions := []
    actionDim := none, fixSeeds := true, episodeSeedShift := 2
    nEpisodesTrain := 3, nEpisodesTest := 1, successScore := none
    rScale := none }

/-- A three-dimensional anchor model that always predicts [3, 3, 3]. -/
def anchorModelEx : Obs → List FVal := fun _ => [FVal.val 3, FVal.val 3, FVal.val 3]

/-- A frozen sub-policy that always outputs 1/2. -/
def subPolHalf : Obs → FVal := fun _ => FVal.val (1/2)

/-- A three-dimensional environment with bounds [-1, 1] per dimension. -/
def envThree : GymEnv Unit :=
  { seed := fun _ s => s
    reset := fun s => (s, [0])
    step := fun s _ => (s, [], 0, true)
    low := [-1, -1, -1]
    high := [1, 1, 1] }

/-- Task with an anchor model for dimension 2, a frozen sub-policy on
dimension 1, and the candidate program on dimension 0. -/
def taskComposed : ControlTask Unit :=
  { env := envThree, model := some anchorModelEx
    symbolicActions := [(1, subPolHalf)]
    actionDim := some 0, fixSeeds := false, episodeSeedShift := 0
    nEpisodesTrain := 1, nEpisodesTest := 1, successScore := none
    rScale := none }

/-- A raw environment with a rank-0 observation space. -/
def rawEnvBad : RawEnv Unit :=
  { obsShape := []
    actionSpace := GymSpace.other
    seed := fun _ s => s
    reset := fun s => (s, [])
    step := fun s _ => (s, [], 0, true) }

/-- A raw environment that passes every configuration check. -/
def rawEnvGood : RawEnv Unit :=
  { obsShape := [2]
    actionSpace := GymSpace.box [-1] [1]
    seed := fun _ s => s
    reset := fun s => (s, [0, 0])
    step := fun s _ => (s, [0, 0], 1, true) }

/-- The per-dimension value prescribed by the spec's composition order
(spec §4.1), stated from the spec's words for comparison against
`composeAction`: the candidate program's output on the learned
dimension; otherwise the frozen sub-policy bound to the dimension;
otherwise the anchor baseline (the anchor model's prediction when a
model is loaded, 0.0 otherwise); with sanitization (NaN→0.0, then
clipping to the bounds) applied last to whichever source won. -/
def specActionValue (t : ControlTask σ) (p : Obs → FVal) (obs : Obs)
    (k : Nat) : ℚ :=
  let source : FVal :=
    if t.actionDim = some k then p obs
    else
      match t.symbolicActions.find? (fun jp => jp.1 == k) with
      | some jp => jp.2 obs
      | none =>
        match t.model with
        | some m => (m obs).getD k (FVal.val 0)
        | none => FVal.val 0
  min (max (deNaN source) (t.env.low.getD k 0)) (t.env.high.getD k 0)

/-! ## Helper lemmas -/

lemma getD_of_lt (l : List α) (d : α) (k : Nat) (h : k < l.length) :
    l[k]? = some (l.getD k d) := by
  rw [List.getD_eq_getElem?_getD, List.getElem?_eq_getElem h]
  rfl

lemma clip3_getElem? :
    ∀ (xs los his : List ℚ) (k : Nat) (x lo hi : ℚ),
      xs[k]? = some x → los[k]? = some lo → his[k]? = some hi →
      (clip3 xs los his)[k]? = some (min (max x lo) hi)
  | [], _, _, k, _, _, _ => by simp
  | _ :: _, [], _, k, _, _, _ => by simp
  | _ :: _, _ :: _, [], k, _, _, _ => by simp
  | x0 :: xs, lo0 :: los, hi0 :: his, 0, x, lo, hi => by
    intro hx hlo hhi
    simp only [List.getElem?_cons_zero, Option.some_inj] at hx hlo hhi
    subst hx; subst hlo; subst hhi
    simp [clip3]
  | x0 :: xs, lo0 :: los, hi0 :: his, k + 1, x, lo, hi => by
    intro hx hlo hhi
    simp only [List.getElem?_cons_succ] at hx hlo hhi
    simpa [clip3] using clip3_getElem? xs los his k x lo hi hx hlo hhi

lemma min_max_as_ite (x lo hi : ℚ) (hb : lo ≤ hi) :
    min (max x lo) hi = if x < lo then lo else if hi < x then hi else x := by
  rcases lt_or_le x lo with h1 | h1
  · rw [max_eq_right h1.le, if_pos h1, min_eq_left hb]
  · rw [max_eq_left h1, if_neg (not_lt.2 h1)]
    rcases lt_or_le hi x with h2 | h2
    · rw [if_pos h2, min_eq_right h2.le]
    · rw [if_neg (not_lt.2 h2), min_eq_left h2]

lemma min_max_zero_flip (lo hi : ℚ) (hb : lo ≤ hi) :
    min (max 0 lo) hi = max lo (min 0 hi) := by
  rcases le_total lo 0 with h1 | h1
  · rcases le_total 0 hi with h2 | h2
    · rw [max_eq_left h1, min_eq_left h2, max_eq_right h1]
    · rw [max_eq_left h1, min_eq_right h2, max_eq_right hb]
  · rw [max_eq_right h1, min_eq_left hb, min_eq_left (h1.trans hb), max_eq_left h1]

/-! ## Claims about sanitization and clipping (C3, C4, C9) -/

/-- C4: for every composed action vector and dimension, a value outside
the action space's bounds [low, high] is passed to `env.step` as the
nearest bound (low if below, high if above), and a value within bounds
is unchanged by clipping. -/
theorem composeAction_nearest_bound (t : ControlTask σ) (p : Obs → FVal)
    (obs : Obs) (k : Nat) (x lo hi : ℚ)
    (hx : ((rawAction t p obs).map deNaN)[k]? = some x)
    (hlo : t.env.low[k]? = some lo) (hhi : t.env.high[k]? = some hi)
    (hb : lo ≤ hi) :
    (composeAction t p obs)[k]? =
      some (if x < lo then lo else if hi < x then hi else x) := by
  rw [composeAction, clip3_getElem? _ _ _ k x lo hi hx hlo hhi,
    min_max_as_ite x lo hi hb]

/-- Witness for C4 on a concrete task: the in-bounds case is unchanged
only up to clipping — here the composed 0 lies below `low = 1` and is
clipped up to 1. -/
theorem composeAction_nearest_bound_witness :
    ((rawAction taskNaNBounds pZero [0]).map deNaN)[0]? = some 0 ∧
    (composeAction taskNaNBounds pZero [0])[0]? = some 1 := by
  constructor
  · rfl
  · have h := composeAction_nearest_bound taskNaNBounds pZero [0] 0 0 1 2
      rfl rfl rfl (by norm_num)
    rw [h]
    norm_num

/-- C9: because NaN replacement precedes clipping, a position that held
NaN ends up at `max(low, min(0, high))` — 0.0 exactly when 0 lies within
the bounds, the nearer bound otherwise. -/
theorem composeAction_nan_clip (t : ControlTask σ) (p : Obs → FVal)
    (obs : Obs) (k : Nat) (lo hi : ℚ)
    (hnan : (rawAction t p obs)[k]? = some FVal.nan)
    (hlo : t.env.low[k]? = some lo) (hhi : t.env.high[k]? = some hi)
    (hb : lo ≤ hi) :
    (composeAction t p obs)[k]? = some (max lo (min 0 hi)) ∧
    (max lo (min 0 hi) = 0 ↔ lo ≤ 0 ∧ 0 ≤ hi) := by
  have hx : ((rawAction t p obs).map deNaN)[k]? = some 0 := by
    rw [List.getElem?_map, hnan]; rfl
  constructor
  · rw [composeAction, clip3_getElem? _ _ _ k 0 lo hi hx hlo hhi,
      min_max_zero_flip lo hi hb]
  · constructor
    · intro h
      constructor
      · calc lo ≤ max lo (min 0 hi) := le_max_left _ _
          _ = 0 := h
      · by_contra h2
        push_neg at h2
        rw [min_eq_right h2.le, max_eq_right hb] at h
        exact h2.ne h
    · rintro ⟨h1, h2⟩
      rw [min_eq_left h2, max_eq_right h1]

/-- Witness for C9: on `taskNaNBounds` (bounds [1, 2]) a NaN action ends
at `max 1 (min 0 2) = 1`. -/
theorem composeAction_nan_clip_witness :
    (composeAction taskNaNBounds pNaN [0])[0]? = some (max 1 (min 0 2)) :=
  (composeAction_nan_clip taskNaNBounds pNaN [0] 0 1 2 rfl rfl rfl
    (by norm_num)).1

/-- Counterexample to C3 as stated: on an action space with bounds
[1, 2], a NaN in position 0 yields 1.0 after composition, not 0.0. -/
theorem composeAction_nan_counterexample :
    (rawAction taskNaNBounds pNaN [0])[0]? = some FVal.nan ∧
    (composeAction taskNaNBounds pNaN [0])[0]? = some 1 ∧ (1 : ℚ) ≠ 0 := by
  refine ⟨rfl, ?_, by norm_num⟩
  rw [composeAction, clip3_getElem? _ _ _ 0 0 1 2 rfl rfl rfl]
  norm_num

/-- C3 (amended): a position that held NaN is exactly 0.0 after
composition provided 0 lies within that dimension's bounds; the
hypotheses constrain only position k, so the result is independent of
the other positions. -/
theorem composeAction_nan_zero (t : ControlTask σ) (p : Obs → FVal)
    (obs : Obs) (k : Nat) (lo hi : ℚ)
    (hnan : (rawAction t p obs)[k]? = some FVal.nan)
    (hlo : t.env.low[k]? = some lo) (hhi : t.env.high[k]? = some hi)
    (hlo0 : lo ≤ 0) (h0hi : 0 ≤ hi) :
    (composeAction t p obs)[k]? = some 0 := by
  have hx : ((rawAction t p obs).map deNaN)[k]? = some 0 := by
    rw [List.getElem?_map, hnan]; rfl
  rw [composeAction, clip3_getElem? _ _ _ k 0 lo hi hx hlo hhi,
    max_eq_left hlo0, min_eq_left h0hi]

/-- Witness for the amended C3: on `taskComposed` (bounds [-1, 1]) a NaN
in the learned dimension 0 becomes exactly 0.0. -/
theorem composeAction_nan_zero_witness :
    (composeAction taskComposed pNaN [0])[0]? = some 0 :=
  composeAction_nan_zero taskComposed pNaN [0] 0 (-1) 1 rfl rfl rfl
    (by norm_num) (by norm_num)

/-! ## Reward scaling (C5) -/

/-- C5: the training reward is the mean of the per-episode training
returns, transformed by the pure affine map `(μ - r_min)/(r_max - r_min)`
when scaling is configured and returned raw otherwise; no clamping is
applied, so with bounds (0, 100) a raw mean of 50 scales to 1/2 and a
raw mean of 150 scales to 3/2 (above 1). -/
theorem rewardFn_affine (t : ControlTask σ) (p : Obs → FVal) (fuel : Nat)
    (s : σ) (μ : ℚ)
    (hμ : listMean (runEpisodes t p t.nEpisodesTrain false fuel s).1 = μ) :
    (∀ rmin rmax : ℚ, t.rScale = some (rmin, rmax) →
        rewardFn t p fuel s = (μ - rmin) / (rmax - rmin)) ∧
    (t.rScale = none → rewardFn t p fuel s = μ) ∧
    (t.rScale = some (0, 100) → μ = 50 → rewardFn t p fuel s = 1 / 2) ∧
    (t.rScale = some (0, 100) → μ = 150 → rewardFn t p fuel s = 3 / 2) := by
  refine ⟨?_, ?_, ?_, ?_⟩
  · intro rmin rmax h
    simp [rewardFn, h, hμ]
  · intro h
    simp [rewardFn, h, hμ]
  · intro h h50
    rw [h50] at hμ
    simp [rewardFn, h, hμ]
    norm_num
  · intro h h150
    rw [h150] at hμ
    simp [rewardFn, h, hμ]
    norm_num

/-- Witness for C5: on single-step constant-reward environments with
scale (0, 100), a raw mean of 50 gives reward 1/2, and a raw mean of
150 gives reward 3/2. -/
theorem rewardFn_affine_witness :
    listMean (runEpisodes taskScale50 pZero taskScale50.nEpisodesTrain false 1 ()).1 = 50 ∧
    rewardFn taskScale50 pZero 1 () = 1 / 2 ∧
    listMean (runEpisodes taskScale150 pZero taskScale150.nEpisodesTrain false 1 ()).1 = 150 ∧
    rewardFn taskScale150 pZero 1 () = 3 / 2 := by
  have h50 : listMean (runEpisodes taskScale50 pZero taskScale50.nEpisodesTrain false 1 ()).1 = 50 := by
    simp [runEpisodes, runEpisodesAux, runSteps, taskScale50, constRewardEnv, listMean]
  have h150 : listMean (runEpisodes taskScale150 pZero taskScale150.nEpisodesTrain false 1 ()).1 = 150 := by
    simp [runEpisodes, runEpisodesAux, runSteps, taskScale150, constRewardEnv, listMean]
  exact ⟨h50, (rewardFn_affine taskScale50 pZero 1 () 50 h50).2.2.1 rfl rfl,
    h150, (rewardFn_affine taskScale150 pZero 1 () 150 h150).2.2.2 rfl rfl⟩

/-! ## Seeding policy (C2) and evaluation determinism (C7) -/

lemma runEpisodesAux_seeds_getElem? (t : ControlTask σ) (p : Obs → FVal)
    (e : Bool) (fuel : Nat) :
    ∀ (k i : Nat) (s : σ) (j : Nat), j < k →
      (runEpisodesAux t p e fuel i k s).2.1[j]? =
        some (if e then some (i + j)
              else if t.fixSeeds then
                some (i + j + t.episodeSeedShift * 100 + REWARD_SEED_SHIFT)
              else none)
  | 0, _, _, j => fun h => absurd h (Nat.not_lt_zero j)
  | k + 1, i, s, j => by
    intro hj
    cases j with
    | zero =>
      simp [runEpisodesAux]
    | succ j =>
      have hj2 : j < k := Nat.lt_of_succ_lt_succ hj
      have ih := runEpisodesAux_seeds_getElem? t p e fuel k (i + 1)
        (runSteps t p fuel (t.env.reset (applySeed t.env
          (if e then some i
           else if t.fixSeeds then
             some (i + t.episodeSeedShift * 100 + REWARD_SEED_SHIFT)
           else none) s)).1
          (t.env.reset (applySeed t.env
            (if e then some i
             else if t.fixSeeds then
               some (i + t.episodeSeedShift * 100 + REWARD_SEED_SHIFT)
             else none) s)).2 0).2 j hj2
      have harith : i + 1 + j = i + (j + 1) := by omega
      simp only [runEpisodesAux, List.getElem?_cons_succ]
      rw [ih, harith]

lemma runEpisodesAux_length_rewards (t : ControlTask σ) (p : Obs → FVal)
    (e : Bool) (fuel : Nat) :
    ∀ (k i : Nat) (s : σ), (runEpisodesAux t p e fuel i k s).1.length = k
  | 0, _, _ => rfl
  | k + 1, i, s => by
    simp only [runEpisodesAux, List.length_cons]
    rw [runEpisodesAux_length_rewards t p e fuel k (i + 1)]

lemma runEpisodesAux_length_seeds (t : ControlTask σ) (p : Obs → FVal)
    (e : Bool) (fuel : Nat) :
    ∀ (k i : Nat) (s : σ), (runEpisodesAux t p e fuel i k s).2.1.length = k
  | 0, _, _ => rfl
  | k + 1, i, s => by
    simp only [runEpisodesAux, List.length_cons]
    rw [runEpisodesAux_length_seeds t p e fuel k (i + 1)]

/-- C2: for every episode index i below the episode count, evaluation
mode seeds the environment with exactly i regardless of `fix_seeds`;
training mode seeds with `i + episode_seed_shift*100 + 1000000` exactly
when `fix_seeds` is enabled and issues no seed call at all when it is
disabled. -/
theorem runEpisodes_seed_policy (t : ControlTask σ) (p : Obs → FVal)
    (n : Nat) (evalMode : Bool) (fuel : Nat) (s : σ) (i : Nat)
    (hi : i < n) :
    (runEpisodes t p n evalMode fuel s).2.1[i]? =
      some (if evalMode then some i
            else if t.fixSeeds then
              some (i + t.episodeSeedShift * 100 + 1000000)
            else none) := by
  have h := runEpisodesAux_seeds_getElem? t p evalMode fuel n 0 s i hi
  simpa [REWARD_SEED_SHIFT, runEpisodes] using h

/-- Witness for C2: with `fix_seeds` and shift 2, training episode 1 is
seeded with 1 + 2*100 + 1000000 = 1000201, while in evaluation mode the
same episode is seeded with 1; with `fix_seeds` off (taskSeeded),
training episode 1 issues no seed call. -/
theorem runEpisodes_seed_policy_witness :
    (runEpisodes taskFixSeeds pZero 3 false 1 ()).2.1[1]? = some (some 1000201) ∧
    (runEpisodes taskFixSeeds pZero 3 true 1 ()).2.1[1]? = some (some 1) ∧
    (runEpisodes taskSeeded pZero 3 false 1 0).2.1[1]? = some none := by
  refine ⟨?_, ?_, ?_⟩
  · have h := runEpisodes_seed_policy taskFixSeeds pZero 3 false 1 () 1 (by norm_num)
    simpa [taskFixSeeds] using h
  · have h := runEpisodes_seed_policy taskFixSeeds pZero 3 true 1 () 1 (by norm_num)
    simpa using h
  · have h := runEpisodes_seed_policy taskSeeded pZero 3 false 1 0 1 (by norm_num)
    simpa [taskSeeded] using h

lemma runEpisodesAux_eval_blind (t : ControlTask σ) (p : Obs → FVal)
    (fuel : Nat)
    (hdet : ∀ (n : Nat) (s s' : σ), t.env.seed n s = t.env.seed n s') :
    ∀ (k i : Nat) (s s' : σ),
      (runEpisodesAux t p true fuel i k s).1 =
        (runEpisodesAux t p true fuel i k s').1 ∧
      (runEpisodesAux t p true fuel i k s).2.1 =
        (runEpisodesAux t p true fuel i k s').2.1
  | 0, _, _, _ => ⟨rfl, rfl⟩
  | k + 1, i, s, s' => by
    simp only [runEpisodesAux, applySeed, if_true]
    rw [hdet i s s']
    exact ⟨rfl, rfl⟩

lemma runEpisodes_eval_seeds (t : ControlTask σ) (p : Obs → FVal)
    (n fuel : Nat) (s : σ) :
    (runEpisodes t p n true fuel s).2.1 = (List.range n).map some := by
  apply List.ext_getElem?
  intro j
  by_cases hj : j < n
  · have h := runEpisodesAux_seeds_getElem? t p true fuel n 0 s j hj
    simp only [if_true, Nat.zero_add] at h
    rw [runEpisodes] at *
    rw [h, List.getElem?_map, List.getElem?_range hj]
    rfl
  · push_neg at hj
    rw [List.getElem?_eq_none_iff.2, List.getElem?_eq_none_iff.2]
    · simpa using hj
    · rw [runEpisodes, runEpisodesAux_length_seeds t p true fuel n 0 s]
      exact hj

/-- C7: two evaluation runs with the same program and episode count
issue the identical seed sequence 0, 1, ..., n-1, and — when seeding
determines the environment state (`hdet`) — yield identical per-episode
returns and identical evaluation reports, independent of the starting
environment state. -/
theorem evaluate_deterministic (t : ControlTask σ) (p : Obs → FVal)
    (fuel : Nat) (s1 s2 : σ)
    (hdet : ∀ (n : Nat) (s s' : σ), t.env.seed n s = t.env.seed n s') :
    (runEpisodes t p t.nEpisodesTest true fuel s1).2.1 =
      (List.range t.nEpisodesTest).map some ∧
    (runEpisodes t p t.nEpisodesTest true fuel s2).2.1 =
      (List.range t.nEpisodesTest).map some ∧
    (runEpisodes t p t.nEpisodesTest true fuel s1).1 =
      (runEpisodes t p t.nEpisodesTest true fuel s2).1 ∧
    evaluateFn t p fuel s1 = evaluateFn t p fuel s2 := by
  have hb := runEpisodesAux_eval_blind t p fuel hdet t.nEpisodesTest 0 s1 s2
  have hr : (runEpisodes t p t.nEpisodesTest true fuel s1).1 =
      (runEpisodes t p t.nEpisodesTest true fuel s2).1 := hb.1
  refine ⟨runEpisodes_eval_seeds t p t.nEpisodesTest fuel s1,
    runEpisodes_eval_seeds t p t.nEpisodesTest fuel s2, hr, ?_⟩
  simp only [evaluateFn]
  rw [hr]

/-- Witness for C7: on the seed-determined environment, evaluation from
starting state 0 and from starting state 99 produce the same report. -/
theorem evaluate_deterministic_witness :
    evaluateFn taskSeeded pZero 1 0 = evaluateFn taskSeeded pZero 1 99 :=
  (evaluate_deterministic taskSeeded pZero 1 0 99 (fun _ _ _ => rfl)).2.2.2

/-! ## The evaluation report (C6) -/

lemma sum_indicator (th : ℚ) : ∀ (rs : List ℚ),
    (rs.map (fun r => if th ≤ r then (1 : ℚ) else 0)).sum =
      ((rs.filter (fun r => decide (th ≤ r))).length : ℚ)
  | [] => by simp
  | r :: rs => by
    by_cases h : th ≤ r
    · simp [h, sum_indicator th rs]
      ring
    · simp [h, sum_indicator th rs]

/-- C6: with a numeric success threshold configured, the evaluation
report's `r_avg_test` is the unnormalized mean of the per-episode test
returns, `success_rate` is the fraction of test episodes whose return
is ≥ the threshold, and `success` is true exactly when `success_rate`
equals 1.0. -/
theorem evaluateFn_report (t : ControlTask σ) (p : Obs → FVal)
    (fuel : Nat) (s : σ) (th : ℚ) (hth : t.successScore = some th) :
    (evaluateFn t p fuel s).r_avg_test =
      listMean (runEpisodes t p t.nEpisodesTest true fuel s).1 ∧
    (evaluateFn t p fuel s).success_rate =
      some ((((runEpisodes t p t.nEpisodesTest true fuel s).1.filter
        (fun r => decide (th ≤ r))).length : ℚ) / (t.nEpisodesTest : ℚ)) ∧
    ((evaluateFn t p fuel s).success = some true ↔
      (evaluateFn t p fuel s).success_rate = some 1) := by
  have hlen : (runEpisodes t p t.nEpisodesTest true fuel s).1.length =
      t.nEpisodesTest :=
    runEpisodesAux_length_rewards t p true fuel t.nEpisodesTest 0 s
  refine ⟨?_, ?_, ?_⟩
  · simp [evaluateFn]
  · simp only [evaluateFn, hth]
    congr 1
    rw [listMean, sum_indicator th, List.length_map, hlen]
  · simp only [evaluateFn, hth, Option.map_some]
    simp

/-- Witness for C6: taskSeeded yields test returns [10, 20, 5] with
threshold 10, hence success rate 2/3 and no overall success. -/
theorem evaluateFn_report_witness :
    taskSeeded.successScore = some 10 ∧
    (runEpisodes taskSeeded pZero taskSeeded.nEpisodesTest true 1 0).1 =
      [10, 20, 5] ∧
    (evaluateFn taskSeeded pZero 1 0).success_rate = some (2 / 3) ∧
    (evaluateFn taskSeeded pZero 1 0).success = some false := by
  have hrs : (runEpisodes taskSeeded pZero taskSeeded.nEpisodesTest true 1 0).1 =
      [10, 20, 5] := by
    simp [runEpisodes, runEpisodesAux, runSteps, applySeed, taskSeeded,
      seedRewardEnv]
  have h := evaluateFn_report taskSeeded pZero 1 0 10 rfl
  refine ⟨rfl, hrs, ?_, ?_⟩
  · rw [h.2.1, hrs]
    norm_num [taskSeeded]
  · simp [evaluateFn, taskSeeded] at *
    rw [hrs]
    norm_num [listMean]

/-! ## Composition order (C1) -/

lemma foldl_set_length (obs : Obs) :
    ∀ (l : List (Nat × (Obs → FVal))) (a0 : List FVal),
      (l.foldl (fun a jp => a.set jp.1 (jp.2 obs)) a0).length = a0.length
  | [], _ => rfl
  | jp :: l, a0 => by
    simp only [List.foldl_cons]
    rw [foldl_set_length obs l (a0.set jp.1 (jp.2 obs)), List.length_set]

lemma foldl_set_getElem? (obs : Obs) :
    ∀ (l : List (Nat × (Obs → FVal))) (a0 : List FVal) (k : Nat),
      (∀ jp ∈ l, jp.1 < a0.length) → (l.map Prod.fst).Nodup →
      k < a0.length →
      (l.foldl (fun a jp => a.set jp.1 (jp.2 obs)) a0)[k]? =
        (match l.find? (fun jp => jp.1 == k) with
         | some jp => some (jp.2 obs)
         | none => a0[k]?)
  | [], a0, k => by
    intro _ _ _
    simp
  | jp0 :: l, a0, k => by
    intro hlt hnd hk
    simp only [List.map_cons, List.nodup_cons] at hnd
    obtain ⟨hni, hnd2⟩ := hnd
    have hlt2 : ∀ jp ∈ l, jp.1 < (a0.set jp0.1 (jp0.2 obs)).length := by
      intro q hq
      rw [List.length_set]
      exact hlt q (List.mem_cons_of_mem _ hq)
    have hk2 : k < (a0.set jp0.1 (jp0.2 obs)).length := by
      rw [List.length_set]; exact hk
    have hrec := foldl_set_getElem? obs l (a0.set jp0.1 (jp0.2 obs)) k
      hlt2 hnd2 hk2
    simp only [List.foldl_cons]
    by_cases hjk : jp0.1 = k
    · have hfind : (jp0 :: l).find? (fun jp => jp.1 == k) = some jp0 :=
        List.find?_cons_of_pos _ (by simp [hjk])
      rw [hfind, hrec]
      have hfn : l.find? (fun jp => jp.1 == k) = none := by
        rw [List.find?_eq_none]
        intro q hq
        have hq1 : q.1 ∈ l.map Prod.fst := List.mem_map_of_mem Prod.fst hq
        have hne : q.1 ≠ jp0.1 := fun h => hni (h ▸ hq1)
        simp [hjk ▸ hne]
      rw [hfn]
      subst hjk
      exact List.getElem?_set_eq_of_lt (jp0.2 obs)
        (hlt jp0 (List.mem_cons_self jp0 l))
    · have hfind : (jp0 :: l).find? (fun jp => jp.1 == k) =
          l.find? (fun jp => jp.1 == k) :=
        List.find?_cons_of_neg _ (by simp [hjk])
      rw [hfind, hrec]
      cases hf : l.find? (fun jp => jp.1 == k) with
      | some q => rfl
      | none => exact List.getElem?_set_ne hjk
lemma pipeline_getElem? (obs : Obs) (a0 : List FVal)
    (sa : List (Nat × (Obs → FVal))) (ad : Option Nat) (p : Obs → FVal)
    (k : Nat)
    (hsub : ∀ jp ∈ sa, jp.1 < a0.length)
    (hnd : (sa.map Prod.fst).Nodup)
    (hk : k < a0.length) :
    ((match ad with
     | some d =>
       (sa.foldl (fun (a : List FVal) jp => a.set jp.1 (jp.2 obs)) a0).set d
         (p obs)
     | none =>
       sa.foldl (fun (a : List FVal) jp => a.set jp.1 (jp.2 obs)) a0 :
      List FVal))[k]? =
      (if ad = some k then some (p obs)
       else match sa.find? (fun jp => jp.1 == k) with
         | some jp => some (jp.2 obs)
         | none => a0[k]?) := by
  cases ad with
  | none =>
    rw [if_neg (by simp)]
    exact foldl_set_getElem? obs sa a0 k hsub hnd hk
  | some d =>
    by_cases hdk : d = k
    · subst hdk
      rw [if_pos rfl]
      exact List.getElem?_set_eq_of_lt (p obs)
        (by rw [foldl_set_length obs sa a0]; exact hk)
    · rw [List.getElem?_set_ne hdk, if_neg (by simp [hdk])]
      exact foldl_set_getElem? obs sa a0 k hsub hnd hk

lemma rawAction_getElem? (t : ControlTask σ) (p : Obs → FVal) (obs : Obs)
    (k : Nat)
    (hml : ∀ m, t.model = some m → (m obs).length = t.env.low.length)
    (hsub : ∀ jp ∈ t.symbolicActions, jp.1 < t.env.low.length)
    (hnd : (t.symbolicActions.map Prod.fst).Nodup)
    (hk : k < t.env.low.length) :
    (rawAction t p obs)[k]? =
      some (if t.actionDim = some k then p obs
            else match t.symbolicActions.find? (fun jp => jp.1 == k) with
              | some jp => jp.2 obs
              | none =>
                match t.model with
                | some m => (m obs).getD k (FVal.val 0)
                | none => FVal.val 0) := by
  rcases hm : t.model with _ | m
  · have h := pipeline_getElem? obs
      (List.replicate t.env.low.length (FVal.val 0)) t.symbolicActions
      t.actionDim p k (by simpa using hsub) hnd (by simpa using hk)
    simp only [rawAction, hm]
    rw [h]
    by_cases had : t.actionDim = some k
    · simp [had]
    · simp only [had, if_neg, ite_false]
      cases hf : t.symbolicActions.find? (fun jp => jp.1 == k) with
      | some q => simp [hf]
      | none => simp [hf, List.getElem?_replicate, hk]
  · have hkm : k < (m obs).length := by rw [hml m hm]; exact hk
    have h := pipeline_getElem? obs (m obs) t.symbolicActions
      t.actionDim p k (by rw [hml m hm]; exact hsub) hnd hkm
    simp only [rawAction, hm]
    rw [h]
    by_cases had : t.actionDim = some k
    · simp [had]
    · simp only [had, if_neg, ite_false]
      cases hf : t.symbolicActions.find? (fun jp => jp.1 == k) with
      | some q => simp [hf]
      | none =>
        simp only [hf]
        exact getD_of_lt (m obs) (FVal.val 0) k hkm

/-- C1: for every in-range dimension k the value passed to `env.step`
is, in order of precedence: the candidate program's output when k is the
learned dimension; else the frozen sub-policy bound to k; else the
anchor baseline (the anchor model's prediction when a model is loaded,
0.0 otherwise) — and sanitization (NaN→0.0 then clipping) is applied
unconditionally, after whichever source won (`specActionValue` states
exactly this order, from the spec's words). -/
theorem composeAction_order (t : ControlTask σ) (p : Obs → FVal)
    (obs : Obs) (k : Nat)
    (hml : ∀ m, t.model = some m → (m obs).length = t.env.low.length)
    (hhl : t.env.high.length = t.env.low.length)
    (hsub : ∀ jp ∈ t.symbolicActions, jp.1 < t.env.low.length)
    (hnd : (t.symbolicActions.map Prod.fst).Nodup)
    (hk : k < t.env.low.length) :
    (composeAction t p obs)[k]? = some (specActionValue t p obs k) := by
  have hraw := rawAction_getElem? t p obs k hml hsub hnd hk
  have hx : ((rawAction t p obs).map deNaN)[k]? =
      some (deNaN (if t.actionDim = some k then p obs
            else match t.symbolicActions.find? (fun jp => jp.1 == k) with
              | some jp => jp.2 obs
              | none =>
                match t.model with
                | some m => (m obs).getD k (FVal.val 0)
                | none => FVal.val 0)) := by
    rw [List.getElem?_map, hraw]
    rfl
  have hlo := getD_of_lt t.env.low 0 k hk
  have hhi := getD_of_lt t.env.high 0 k (by rw [hhl]; exact hk)
  rw [composeAction, clip3_getElem? _ _ _ k _ _ _ hx hlo hhi]
  rfl

/-- Witness for C1 on `taskComposed` at observation [0]: the learned
dimension 0 carries the program's 0, dimension 1 carries the frozen
sub-policy's 1/2, and dimension 2 carries the anchor's 3 clipped to 1. -/
theorem composeAction_order_witness :
    (composeAction taskComposed pZero [0])[0]? = some 0 ∧
    (composeAction taskComposed pZero [0])[1]? = some (1 / 2) ∧
    (composeAction taskComposed pZero [0])[2]? = some 1 := by
  have hml : ∀ m, taskComposed.model = some m →
      (m [0]).length = taskComposed.env.low.length := by
    intro m hm
    have hm2 : some anchorModelEx = some m := hm
    rw [Option.some_inj] at hm2
    rw [← hm2]
    rfl
  have hsub : ∀ jp ∈ taskComposed.symbolicActions,
      jp.1 < taskComposed.env.low.length := by
    intro jp hjp
    rw [show taskComposed.symbolicActions = [(1, subPolHalf)] from rfl,
      List.mem_singleton] at hjp
    subst hjp
    decide
  have hnd : (taskComposed.symbolicActions.map Prod.fst).Nodup := by
    rw [show taskComposed.symbolicActions = [(1, subPolHalf)] from rfl]
    simp
  refine ⟨?_, ?_, ?_⟩
  · rw [composeAction_order taskComposed pZero [0] 0 hml rfl hsub hnd
      (by decide)]
    norm_num [specActionValue, taskComposed, envThree, pZero, deNaN]
  · rw [composeAction_order taskComposed pZero [0] 1 hml rfl hsub hnd
      (by decide)]
    norm_num [specActionValue, taskComposed, envThree, subPolHalf, deNaN,
      min_def, max_def]
  · rw [composeAction_order taskComposed pZero [0] 2 hml rfl hsub hnd
      (by decide)]
    norm_num [specActionValue, taskComposed, envThree, anchorModelEx, deNaN,
      min_def, max_def]

/-! ## Construction-time validation (C8) and the success threshold (C10) -/

/-- C8: every listed configuration error — wrong action-spec length,
more than one learned dimension, non-rank-1 observation space, non-box
action space, reward scaling requested with no known bounds, exactly one
of algorithm/anchor provided — makes `make_control_task` fail, so no
task (and hence no reward/evaluate closure) is ever produced. -/
theorem makeControlTask_config_errors (env : RawEnv σ) (envName : String)
    (actionSpec : List SpecEntry) (algorithm anchor : Option String)
    (anchorModel : Obs → List FVal) (nTr nTe : Nat)
    (successScore : Option ℚ) (fixSeeds : Bool) (shift : Nat)
    (rewardScale : RewardScaleArg)
    (h :
      env.obsShape.length ≠ 1 ∨
      (∀ lo hi, env.actionSpace ≠ GymSpace.box lo hi) ∨
      (∃ lo hi, env.actionSpace = GymSpace.box lo hi ∧
        lo.length ≠ actionSpec.length) ∨
      1 < (actionSpec.filter SpecEntry.isLearned).length ∨
      (rewardScale = RewardScaleArg.ofBool true ∧
        REWARD_SCALE.find? (fun e => e.1 == envName) = none) ∨
      algorithm.isNone ≠ anchor.isNone) :
    constructionSucceeds (makeControlTask env envName actionSpec algorithm
      anchor anchorModel nTr nTe successScore fixSeeds shift rewardScale) =
      false := by
  rcases hrs : resolveRewardScale rewardScale envName with e | rmm
  · simp [makeControlTask, hrs, constructionSucceeds]
  · rcases hobs : env.obsShape with _ | ⟨n0, rest⟩
    · simp [makeControlTask, hrs, hobs, constructionSucceeds]
    · by_cases hrest : rest = []
      · subst hrest
        cases hbox : env.actionSpace with
        | box lo hi =>
          by_cases hlen : lo.length = actionSpec.length
          · by_cases hfil : (actionSpec.filter SpecEntry.isLearned).length ≤ 1
            · by_cases halg : algorithm.isNone = anchor.isNone
              · exfalso
                rcases h with hA | hB | hC | hD | hE | hF
                · exact hA (by rw [hobs]; rfl)
                · exact hB lo hi hbox
                · rcases hC with ⟨lo2, hi2, heq, hne⟩
                  have hinj := hbox.symm.trans heq
                  injection hinj with h1 h2
                  exact hne (h1 ▸ hlen)
                · exact (not_le.2 hD) hfil
                · rcases hE with ⟨hrw, hfindn⟩
                  subst hrw
                  simp [resolveRewardScale, hfindn] at hrs
                · exact hF halg
              · simp [makeControlTask, hrs, hobs, hbox, hlen, hfil, halg,
                  constructionSucceeds]
            · simp [makeControlTask, hrs, hobs, hbox, hlen, hfil,
                constructionSucceeds]
          · simp [makeControlTask, hrs, hobs, hbox, hlen,
              constructionSucceeds]
        | other =>
          simp [makeControlTask, hrs, hobs, hbox, constructionSucceeds]
      · simp [makeControlTask, hrs, hobs, hrest, constructionSucceeds]

/-- Witness for C8: an environment with a rank-0 observation space is
rejected at construction. -/
theorem makeControlTask_config_errors_witness :
    rawEnvBad.obsShape.length ≠ 1 ∧
    constructionSucceeds (makeControlTask rawEnvBad "X" [] none none
      (fun _ => []) 1 1 none false 0 (RewardScaleArg.ofBool false)) =
      false := by
  refine ⟨by decide, ?_⟩
  exact makeControlTask_config_errors rawEnvBad "X" [] none none
    (fun _ => []) 1 1 none false 0 (RewardScaleArg.ofBool false)
    (Or.inl (by decide))

lemma makeControlTask_succeeds_ignores_score (env : RawEnv σ)
    (envName : String) (actionSpec : List SpecEntry)
    (algorithm anchor : Option String) (anchorModel : Obs → List FVal)
    (nTr nTe : Nat) (fixSeeds : Bool) (shift : Nat)
    (rewardScale : RewardScaleArg) (th1 th2 : Option ℚ) :
    constructionSucceeds (makeControlTask env envName actionSpec algorithm
      anchor anchorModel nTr nTe th1 fixSeeds shift rewardScale) =
    constructionSucceeds (makeControlTask env envName actionSpec algorithm
      anchor anchorModel nTr nTe th2 fixSeeds shift rewardScale) := by
  rcases hrs : resolveRewardScale rewardScale envName with e | rmm
  · simp [makeControlTask, hrs]
  · rcases hobs : env.obsShape with _ | ⟨n0, rest⟩
    · simp [makeControlTask, hrs, hobs]
    · by_cases hrest : rest = []
      · subst hrest
        cases hbox : env.actionSpace with
        | box lo hi =>
          by_cases hlen : lo.length = actionSpec.length
          · by_cases hfil : (actionSpec.filter SpecEntry.isLearned).length ≤ 1
            · by_cases halg : algorithm.isNone = anchor.isNone
              · simp [makeControlTask, hrs, hobs, hbox, hlen, hfil, halg,
                  constructionSucceeds]
              · simp [makeControlTask, hrs, hobs, hbox, hlen, hfil, halg,
                  constructionSucceeds]
            · simp [makeControlTask, hrs, hobs, hbox, hlen, hfil,
                constructionSucceeds]
          · simp [makeControlTask, hrs, hobs, hbox, hlen,
              constructionSucceeds]
        | other =>
          simp [makeControlTask, hrs, hobs, hbox, constructionSucceeds]
      · simp [makeControlTask, hrs, hobs, hrest, constructionSucceeds]

/-- C10: the success threshold is never inspected during construction
(whether construction succeeds is unchanged by it), and the evaluation
report's `success_rate`/`success` fields are defined exactly when a
numeric threshold was supplied: `none`-threshold tasks yield undefined
(`none`) fields, numeric-threshold tasks yield defined ones. -/
theorem successScore_precondition (env : RawEnv σ) (envName : String)
    (actionSpec : List SpecEntry) (algorithm anchor : Option String)
    (anchorModel : Obs → List FVal) (nTr nTe : Nat) (fixSeeds : Bool)
    (shift : Nat) (rewardScale : RewardScaleArg) (th1 th2 : Option ℚ)
    (t : ControlTask τ) (p : Obs → FVal) (fuel : Nat) (s : τ) :
    constructionSucceeds (makeControlTask env envName actionSpec algorithm
      anchor anchorModel nTr nTe th1 fixSeeds shift rewardScale) =
      constructionSucceeds (makeControlTask env envName actionSpec algorithm
        anchor anchorModel nTr nTe th2 fixSeeds shift rewardScale) ∧
    (t.successScore = none →
      (evaluateFn t p fuel s).success_rate = none ∧
      (evaluateFn t p fuel s).success = none) ∧
    (∀ th, t.successScore = some th →
      (evaluateFn t p fuel s).success_rate.isSome = true ∧
      (evaluateFn t p fuel s).success.isSome = true) := by
  refine ⟨makeControlTask_succeeds_ignores_score env envName actionSpec
    algorithm anchor anchorModel nTr nTe fixSeeds shift rewardScale th1 th2,
    ?_, ?_⟩
  · intro hnone
    simp [evaluateFn, hnone]
  · intro th hth
    simp [evaluateFn, hth]

/-- Witness for C10: construction outcome is the same with threshold 5
and with no threshold; a `none`-threshold task reports undefined success
fields while a numeric-threshold task reports defined ones. -/
theorem successScore_precondition_witness :
    constructionSucceeds (makeControlTask rawEnvGood "X" [SpecEntry.learned]
      none none (fun _ => []) 1 1 (some 5) false 0
      (RewardScaleArg.ofBool false)) =
      constructionSucceeds (makeControlTask rawEnvGood "X"
        [SpecEntry.learned] none none (fun _ => []) 1 1 none false 0
        (RewardScaleArg.ofBool false)) ∧
    (evaluateFn taskFixSeeds pZero 1 ()).success_rate = none ∧
    (evaluateFn taskSeeded pZero 1 0).success_rate.isSome = true := by
  refine ⟨?_, ?_, ?_⟩
  · exact (successScore_precondition rawEnvGood "X" [SpecEntry.learned]
      none none (fun _ => []) 1 1 false 0 (RewardScaleArg.ofBool false)
      (some 5) none taskFixSeeds pZero 1 ()).1
  · exact ((successScore_precondition rawEnvGood "X" [SpecEntry.learned]
      none none (fun _ => []) 1 1 false 0 (RewardScaleArg.ofBool false)
      (some 5) none taskFixSeeds pZero 1 ()).2.1 rfl).1
  · exact ((successScore_precondition rawEnvGood "X" [SpecEntry.learned]
      none none (fun _ => []) 1 1 false 0 (RewardScaleArg.ofBool false)
      (some 5) none taskSeeded pZero 1 0).2.2 10 rfl).1

end DsoControl
